import Mathlib

/-!
Verification of the sniper-game authoritative server core
(`src/server/Player.js`, `src/server/GameRoom.js`, `src/server/GameManager.js`,
`src/server/constants.js`, `src/server/physics.js`).

The JavaScript code works over IEEE doubles; the embedding uses exact
rationals (`ℚ`) for all geometric and numeric values.  The one operation
with no rational counterpart, `Math.sqrt` in the shot-direction
normalization, is modelled by passing its result `len` as an explicit
argument to `handlePlayerShoot` (the source computes
`len = Math.sqrt(x*x + y*y + z*z)`; `len = 0` exactly when the squared
norm is zero).  JavaScript `Infinity` (the initial `tMax` of the slab
test, and the distance of a ray that is parallel to all three slab axes)
is modelled by `Option ℚ` with `none` standing for `+∞`.
-/

namespace SniperGame

/-- A 3-component vector, as the `{x, y, z}` objects of the source. -/
structure Vec3 where
  x : ℚ
  y : ℚ
  z : ℚ
deriving DecidableEq, Inhabited

/-- Game constants from `src/server/constants.js`. -/
def TICK_RATE : ℤ := 20

def MAX_HEALTH : ℤ := 100

def BODY_DAMAGE : ℤ := 65

def HEADSHOT_DAMAGE : ℤ := 100

def RESPAWN_TIME : ℤ := 3000

def MAX_AMMO : ℤ := 5

def RELOAD_TIME : ℤ := 2500

def SHOT_COOLDOWN : ℤ := 1500

def PLAYER_HEIGHT : ℚ := 9 / 5

def PLAYER_RADIUS : ℚ := 2 / 5

/-- The fixed 4-point spawn pool `SPAWN_POINTS` of `constants.js`. -/
def SPAWN_POINTS : List Vec3 :=
  [⟨-40, 1, -40⟩, ⟨40, 1, 40⟩, ⟨-40, 1, 40⟩, ⟨40, 1, -40⟩]

/-- The epsilon `1e-8` of the parallel-axis test in `checkHit`. -/
def EPS : ℚ := 1 / 100000000

/-- The constants object `{ PLAYER_HEIGHT, PLAYER_RADIUS }` passed to
`checkHit` by `handlePlayerShoot`. -/
structure HitConstants where
  height : ℚ
  radius : ℚ
deriving DecidableEq

def GAME_HIT_CONSTANTS : HitConstants := ⟨PLAYER_HEIGHT, PLAYER_RADIUS⟩

/-- Result record of `checkHit` in `src/server/physics.js`.  `distance` is
`none` when the JavaScript value would be `Infinity` (possible only when
the direction is below epsilon on all three axes). -/
structure HitResult where
  hit : Bool
  headshot : Bool
  distance : Option ℚ
deriving DecidableEq

/-- Narrow the running `(tMin, tMax)` interval by the ordered slab
parameters `(t1, t2)` and fail when `tMin > tMax` — the tail of each
non-parallel slab block of `checkHit`.  A `none` state is the initial
`(-Infinity, Infinity)`, for which `max`/`min` just pick `t1`/`t2`. -/
def slabNarrow (t1 t2 : ℚ) : Option (ℚ × ℚ) → Option (Option (ℚ × ℚ))
  | none => if t1 > t2 then none else some (some (t1, t2))
  | some ab =>
      if max ab.1 t1 > min ab.2 t2 then none
      else some (some (max ab.1 t1, min ab.2 t2))

/-- One axis of the slab intersection in `checkHit` (the three per-axis
blocks of `physics.js` are textually identical up to the axis).  The
state is the running `(tMin, tMax)` pair, with `none` standing for the
initial `(-Infinity, Infinity)`; the two components are narrowed together,
so a single `Option` suffices.  The outer `Option` is `none` when the
block returns the miss result early.  `origin`/`dirc` are the ray origin
and direction components on this axis, `mn`/`mx` the slab bounds. -/
def slabAxis (origin dirc mn mx : ℚ) (s : Option (ℚ × ℚ)) :
    Option (Option (ℚ × ℚ)) :=
  if |dirc| < EPS then
    -- Ray is parallel to this axis's slabs
    if origin < mn ∨ origin > mx then none else some s
  else
    let u1 := (mn - origin) * (1 / dirc)
    let u2 := (mx - origin) * (1 / dirc)
    slabNarrow (if u1 > u2 then u2 else u1) (if u1 > u2 then u1 else u2) s

/-- The miss result `{ hit: false, headshot: false, distance: 0 }`. -/
def missResult : HitResult := ⟨false, false, some 0⟩

/-- The three slab phases of `checkHit` chained together, threading the
`(tMin, tMax)` state; `Option.bind` propagates the early miss returns. -/
def slabs3 (shooterPos direction : Vec3)
    (minX maxX minY maxY minZ maxZ : ℚ) : Option (Option (ℚ × ℚ)) :=
  (slabAxis shooterPos.x direction.x minX maxX none).bind fun s1 =>
  (slabAxis shooterPos.y direction.y minY maxY s1).bind fun s2 =>
  slabAxis shooterPos.z direction.z minZ maxZ s2

/-- The tail of `checkHit` after the three slab phases: the `tMax < 0`
behind-the-ray test, the entry-parameter selection and the headshot
band check. -/
def finishHit (shooterPos direction : Vec3) (maxY height : ℚ) :
    Option (ℚ × ℚ) → HitResult
  | some tt =>
      -- tMax < 0: box entirely behind the ray
      if tt.2 < 0 then missResult
      else
        let tHit := if tt.1 ≥ 0 then tt.1 else tt.2
        let hitY := shooterPos.y + direction.y * tHit
        let headshotThreshold := maxY - height * (3 / 10)
        ⟨true, if hitY ≥ headshotThreshold then true else false, some tHit⟩
  | none =>
      -- No axis narrowed the interval: tMin = -Infinity, tMax = Infinity,
      -- so `tMax < 0` fails, `tMin >= 0` fails, tHit = Infinity and the
      -- JavaScript hitY is `shooterPos.y + direction.y * Infinity`, which
      -- exceeds the finite threshold exactly when `direction.y > 0`
      -- (it is -Infinity for negative y, NaN for zero y).
      ⟨true, if 0 < direction.y then true else false, none⟩

/-- Dispatch on the outcome of the three slab phases: an early miss
return, or the tail of `checkHit`. -/
def finishAll (shooterPos direction : Vec3) (maxY height : ℚ) :
    Option (Option (ℚ × ℚ)) → HitResult
  | none => missResult
  | some s3 => finishHit shooterPos direction maxY height s3

/-- `checkHit` of `src/server/physics.js`: ray-AABB slab intersection with
a headshot flag for hit points in the upper 30% of the box.  The box is
centred at `targetPos` with half-width/depth `c.radius` and half-height
`c.height / 2`. -/
def checkHit (shooterPos direction targetPos : Vec3) (c : HitConstants) :
    HitResult :=
  finishAll shooterPos direction (targetPos.y + c.height / 2) c.height
    (slabs3 shooterPos direction
      (targetPos.x - c.radius) (targetPos.x + c.radius)
      (targetPos.y - c.height / 2) (targetPos.y + c.height / 2)
      (targetPos.z - c.radius) (targetPos.z + c.radius))

/-- Scale a vector by a scalar (`direction` scaled by `k`). -/
def scaleVec (k : ℚ) (v : Vec3) : Vec3 := ⟨k * v.x, k * v.y, k * v.z⟩

/-- Scale a slab state by `1 / k`: the parametric interval of the ray with
direction `k * d` is the interval of the ray with direction `d`, shrunk
by `k`. -/
def scaleState (k : ℚ) : Option (ℚ × ℚ) → Option (ℚ × ℚ) :=
  Option.map fun ab => (ab.1 / k, ab.2 / k)

/-! ### Player state (`src/server/Player.js`) -/

/-- The per-player record of `Player.js`.  `health` and `ammo` are `ℤ`
(JavaScript numbers holding integers); `lastShotTime` is a millisecond
timestamp. -/
structure Player where
  id : String
  username : String
  health : ℤ
  position : Vec3
  rotation : Vec3
  kills : ℤ
  deaths : ℤ
  ammo : ℤ
  isAlive : Bool
  lastShotTime : ℤ
  isReloading : Bool
deriving DecidableEq

/-- The `Player` constructor: full health and ammo, alive, default
position `(0, 1, 0)`. -/
def Player.new (id username : String) : Player :=
  { id := id
    username := username
    health := MAX_HEALTH
    position := ⟨0, 1, 0⟩
    rotation := ⟨0, 0, 0⟩
    kills := 0
    deaths := 0
    ammo := MAX_AMMO
    isAlive := true
    lastShotTime := 0
    isReloading := false }

/-- `Player.prototype.reset`: restore health/ammo/alive and clear the
shot cooldown and reload flag; id, username, kills and deaths persist. -/
def Player.reset (p : Player) : Player :=
  { p with
    health := MAX_HEALTH
    ammo := MAX_AMMO
    isAlive := true
    lastShotTime := 0
    isReloading := false }

/-- `Player.prototype.takeDamage`: subtract `amount` from health, clamp
at 0 and flip `isAlive` when the result is ≤ 0; a dead player is left
unchanged.  Returns the updated player and the `killed` flag. -/
def Player.takeDamage (p : Player) (amount : ℤ) : Player × Bool :=
  if p.isAlive = false then (p, false)
  else
    let h := p.health - amount
    if h ≤ 0 then ({ p with health := 0, isAlive := false }, true)
    else ({ p with health := h }, false)

/-! ### Room state and event handlers (`src/server/GameRoom.js`)

Socket emissions and timer arms are modelled as a list of `Event`s
returned alongside the updated room; the one-shot timer callbacks
(`reload` completion, respawn) are separate functions invoked when the
corresponding timer fires. -/

/-- Observable effects of a room operation: socket emissions and timer
arms, in emission order.  Payload fields no claim inspects (extra
key/death tallies in `player:killed`, timestamps) are omitted. -/
inductive Event where
  | roomError (msg : String)
  | roomJoined (roomCode playerId : String)
  | playerJoined (id username : String)
  | gameStart
  | playerDisconnected (id username : String)
  | gameOver (reason : String)
  | shootDenied (id reason : String)
  | shootMiss (id : String)
  | hitConfirmed (shooterId targetId : String) (damage : ℤ) (headshot : Bool)
  | playerKilled (killerId victimId : String) (headshot : Bool)
  | playerDied (victimId killerName : String) (respawnTime : ℤ)
  | armRespawnTimer (victimId : String)
  | playerReloading (id : String)
  | armReloadTimer (id : String)
  | playerReloaded (id : String) (ammo : ℤ)
  | playerRespawned (id : String) (position : Vec3) (health : ℤ)
  | armCleanupTimer
deriving DecidableEq

/-- A game room: the `players` Map in insertion order (socket ids are the
`Player.id` fields and are distinct, as keys of a Map), plus the
`running` flag. -/
structure Room where
  roomCode : String
  players : List Player
  running : Bool
deriving DecidableEq

/-- `this.players.get(socketId)`. -/
def Room.find (r : Room) (socketId : String) : Option Player :=
  r.players.find? fun p => p.id == socketId

/-- Mutate the player stored under `socketId` in place (object mutation
through the Map reference in the source). -/
def Room.update (r : Room) (socketId : String) (f : Player → Player) :
    Room :=
  { r with players := r.players.map fun p => if p.id == socketId then f p else p }

/-- `handlePlayerUpdate`: accept client position/rotation for a living
player; absent fields (`if (data.position)` / `if (data.rotation)`)
leave the stored value untouched. -/
def handlePlayerUpdate (r : Room) (socketId : String)
    (pos? rot? : Option Vec3) : Room :=
  match r.find socketId with
  | none => r
  | some player =>
    if player.isAlive = false then r
    else
      r.update socketId fun p =>
        let p1 := match pos? with
          | none => p
          | some v => { p with position := v }
        match rot? with
        | none => p1
        | some v => { p1 with rotation := v }

/-- `handlePlayerReload`: reject when dead, already reloading, or at full
ammo; otherwise set the reload flag, notify the room, and arm the
one-shot reload timer. -/
def handlePlayerReload (r : Room) (socketId : String) :
    Room × List Event :=
  match r.find socketId with
  | none => (r, [])
  | some player =>
    if player.isAlive = false then (r, [])
    else if player.isReloading then (r, [])
    else if player.ammo == MAX_AMMO then (r, [])
    else
      (r.update socketId fun p => { p with isReloading := true },
       [Event.playerReloading socketId, Event.armReloadTimer socketId])

/-- The reload timer callback inside `handlePlayerReload`: the only guard
is that the player still exists (they may have died during the reload);
refill ammo and clear the flag. -/
def reloadTimerFire (r : Room) (socketId : String) : Room × List Event :=
  match r.find socketId with
  | none => (r, [])
  | some _ =>
      (r.update socketId fun p =>
        { p with ammo := MAX_AMMO, isReloading := false },
       [Event.playerReloaded socketId MAX_AMMO])

/-- Squared Euclidean distance, as the `dx*dx + dy*dy + dz*dz` of
`getSpawnPoint` ("squared is fine for comparison"). -/
def sqDist (a b : Vec3) : ℚ :=
  (a.x - b.x) * (a.x - b.x) + (a.y - b.y) * (a.y - b.y) +
    (a.z - b.z) * (a.z - b.z)

/-- The body of the `for (const spawn of SPAWN_POINTS)` loop of
`getSpawnPoint`: replace the running `(bestSpawn, bestDist)` pair when
this spawn is strictly farther from `op`. -/
def spawnStep (op : Vec3) (best : Vec3 × ℚ) (spawn : Vec3) : Vec3 × ℚ :=
  if sqDist spawn op > best.2 then (spawn, sqDist spawn op) else best

/-- `getSpawnPoint`: scan the players for the position of anyone other
than `avoidPlayerId` (the `forEach` keeps the last one seen), then pick
the first pool entry of maximal squared distance to it (`dist > bestDist`
with `bestDist` starting at `-1` and `bestSpawn` at `SPAWN_POINTS[0]`).
With no other player, return `SPAWN_POINTS[0]`. -/
def getSpawnPoint (r : Room) (avoidPlayerId : String) : Vec3 :=
  let otherPos := r.players.foldl
    (fun acc p => if p.id == avoidPlayerId then acc else some p.position)
    none
  match otherPos with
  | none => SPAWN_POINTS.headI
  | some op =>
      (SPAWN_POINTS.foldl (spawnStep op) (SPAWN_POINTS.headI, (-1 : ℚ))).1

/-- Modelled from the spec wording of the spawn policy, for comparison
with `getSpawnPoint`: `best` is the first entry of the pool `l` attaining
the maximal squared distance to `op` — everything before it is strictly
closer, everything after it no farther. -/
def isFirstArgmax (op : Vec3) (l : List Vec3) (best : Vec3) : Prop :=
  ∃ l1 l2, l = l1 ++ best :: l2 ∧
    (∀ sp ∈ l1, sqDist sp op < sqDist best op) ∧
    (∀ sp ∈ l2, sqDist sp op ≤ sqDist best op)

/-- `respawnPlayer` (the respawn timer callback): no-op when the player
has left; otherwise `reset()` them, move them to the spawn point picked
by `getSpawnPoint`, and notify them (the emission reads back the freshly
written position and health fields). -/
def respawnPlayer (r : Room) (playerId : String) : Room × List Event :=
  match r.find playerId with
  | none => (r, [])
  | some _ =>
      let r1 := r.update playerId Player.reset
      let spawn := getSpawnPoint r1 playerId
      (r1.update playerId fun p => { p with position := spawn },
       [Event.playerRespawned playerId spawn MAX_HEALTH])

/-- `handlePlayerDeath`: bump the victim's deaths and the killer's kills,
broadcast the kill, notify the victim (`Math.ceil(RESPAWN_TIME / 1000)`
seconds to respawn) and arm the one-shot respawn timer. -/
def handlePlayerDeath (r : Room) (victim killer : Player)
    (headshot : Bool) : Room × List Event :=
  let r1 := (r.update victim.id fun p => { p with deaths := p.deaths + 1
    }).update killer.id fun p => { p with kills := p.kills + 1 }
  (r1,
   [Event.playerKilled killer.id victim.id headshot,
    Event.playerDied victim.id killer.username ⌈(RESPAWN_TIME : ℚ) / 1000⌉,
    Event.armRespawnTimer victim.id])

/-- Comparison `result.distance < hitResult.distance` on optional
distances, with `none` as JavaScript `Infinity`: anything finite is
closer than `Infinity`, and `Infinity < x` is false. -/
def ltDist : Option ℚ → Option ℚ → Bool
  | some a, some b => a < b
  | some _, none => true
  | none, _ => false

/-- The `!hitResult || result.distance < hitResult.distance` test of the
shoot loop: a hit replaces the running best when there is none yet or
this one is strictly closer. -/
def betterHit (result : HitResult) :
    Option (HitResult × Player) → Bool
  | none => true
  | some best => ltDist result.distance best.1.distance

/-- The body of the `this.players.forEach` loop of `handlePlayerShoot`:
skip the shooter and dead players, ray-test the rest and keep the closest
hit (strict `<`, so the earliest player in Map order wins ties). -/
def shootStep (socketId : String) (origin dir : Vec3)
    (acc : Option (HitResult × Player)) (target : Player) :
    Option (HitResult × Player) :=
  if target.id == socketId then acc
  else if target.isAlive = false then acc
  else
    let result := checkHit origin dir target.position GAME_HIT_CONSTANTS
    if result.hit then
      if betterHit result acc then some (result, target) else acc
    else acc

/-- The `this.players.forEach` loop of `handlePlayerShoot`. -/
def nearestHit (players : List Player) (socketId : String)
    (origin dir : Vec3) : Option (HitResult × Player) :=
  players.foldl (shootStep socketId origin dir) none

/-- `handlePlayerShoot`.  `len` is the value of
`Math.sqrt(direction.x² + direction.y² + direction.z²)` computed by the
source (see the module docstring); `now` is `Date.now()`.  Guards run in
source order: existence and aliveness (silent), reloading, cooldown and
ammo (typed denials); then ammo is consumed and the shot time stamped
*before* the direction is validated, so a missing or zero-length
direction returns with the ammo already spent.  A surviving direction is
normalized and ray-tested against every other living player; the nearest
hit takes damage, and a kill is routed through `handlePlayerDeath`. -/
def handlePlayerShoot (r : Room) (socketId : String)
    (origin? direction? : Option Vec3) (len : ℚ) (now : ℤ) :
    Room × List Event :=
  match r.find socketId with
  | none => (r, [])
  | some shooter =>
    if shooter.isAlive = false then (r, [])
    else if shooter.isReloading then
      (r, [Event.shootDenied socketId "reloading"])
    else if now - shooter.lastShotTime < SHOT_COOLDOWN then
      (r, [Event.shootDenied socketId "cooldown"])
    else if shooter.ammo ≤ 0 then
      (r, [Event.shootDenied socketId "no_ammo"])
    else
      let r1 := r.update socketId fun p =>
        { p with ammo := p.ammo - 1, lastShotTime := now }
      let origin := origin?.getD shooter.position
      match direction? with
      | none => (r1, [])
      | some direction =>
        if len = 0 then (r1, [])
        else
          let dir : Vec3 :=
            ⟨direction.x / len, direction.y / len, direction.z / len⟩
          match nearestHit r1.players socketId origin dir with
          | none => (r1, [Event.shootMiss socketId])
          | some hitBest =>
              let damage := if hitBest.1.headshot then HEADSHOT_DAMAGE
                else BODY_DAMAGE
              let dmgRes := hitBest.2.takeDamage damage
              let r2 := r1.update hitBest.2.id fun _ => dmgRes.1
              let ev0 := [Event.hitConfirmed socketId hitBest.2.id damage
                hitBest.1.headshot]
              if dmgRes.2 then
                let dres := handlePlayerDeath r2 hitBest.2 shooter
                  hitBest.1.headshot
                (dres.1, ev0 ++ dres.2)
              else (r2, ev0)

/-- `startGame` spawn assignment: players in join order get
`SPAWN_POINTS[index % SPAWN_POINTS.length]`. -/
def assignSpawns : ℕ → List Player → List Player
  | _, [] => []
  | i, p :: ps =>
      { p with position := SPAWN_POINTS.getI (i % SPAWN_POINTS.length) } ::
        assignSpawns (i + 1) ps

/-- `startGame`: no-op when already running; otherwise assign spawn
points, set `running` and broadcast `game:start`. -/
def startGame (r : Room) : Room × List Event :=
  if r.running then (r, [])
  else
    ({ r with players := assignSpawns 0 r.players, running := true },
     [Event.gameStart])

/-- `addPlayer`: reject when the room already has 2 players; otherwise
append a fresh `Player`, emit the join notifications, and start the game
when the room reaches 2 players. -/
def addPlayer (r : Room) (socketId username : String) :
    Room × List Event :=
  if r.players.length ≥ 2 then (r, [Event.roomError "Room is full"])
  else
    let r1 := { r with players := r.players ++ [Player.new socketId username] }
    let evs := [Event.roomJoined r.roomCode socketId,
      Event.playerJoined socketId username]
    if r1.players.length == 2 then
      let sres := startGame r1
      (sres.1, evs ++ sres.2)
    else (r1, evs)

/-- `removePlayer`: delete the player; with the room empty, stop the game
and arm the 15-second cleanup timer, and with an opponent left mid-game,
stop the loop and announce `game:over`. -/
def removePlayer (r : Room) (socketId : String) : Room × List Event :=
  match r.find socketId with
  | none => (r, [])
  | some player =>
      let r1 := { r with players := r.players.filter fun p => !(p.id == socketId) }
      let evs := [Event.playerDisconnected socketId player.username]
      if r1.players.length == 0 then
        ({ r1 with running := false }, evs ++ [Event.armCleanupTimer])
      else if r1.running then
        ({ r1 with running := false }, evs ++ [Event.gameOver "opponent_left"])
      else (r1, evs)

/-! ### Room registry (`src/server/GameManager.js`) -/

/-- The `GameManager`: the `rooms` Map from room code to room. -/
structure GameManager where
  rooms : List (String × Room)
deriving DecidableEq

/-- `this.rooms.get(code)`. -/
def GameManager.findRoom (gm : GameManager) (code : String) : Option Room :=
  (gm.rooms.find? fun kv => kv.1 == code).map fun kv => kv.2

/-- Store an updated room back under its code. -/
def GameManager.setRoom (gm : GameManager) (code : String) (room : Room) :
    GameManager :=
  { gm with rooms := gm.rooms.map fun kv =>
      if kv.1 == code then (kv.1, room) else kv }

/-- `roomCode.toUpperCase()` of the source (room codes are ASCII):
uppercase every character.  Same as `String.toUpper`, but written over
the character list so that it evaluates on concrete codes. -/
def jsToUpper (s : String) : String := ⟨s.data.map Char.toUpper⟩

/-- The `room:join` handler of `_handleLobbyConnection`: validate the
username and room code (JavaScript falsiness on strings is emptiness),
normalize the code with `toUpperCase()`, and fail with `Room not found` /
`Room is full` without touching the registry or any room; otherwise
delegate to `addPlayer` on the matched room. -/
def roomJoin (gm : GameManager) (socketId roomCode username : String) :
    GameManager × List Event :=
  if username = "" then (gm, [Event.roomError "Username is required"])
  else if roomCode = "" then (gm, [Event.roomError "Room code is required"])
  else
    let code := jsToUpper roomCode
    match gm.findRoom code with
    | none => (gm, [Event.roomError "Room not found"])
    | some room =>
      if room.players.length ≥ 2 then (gm, [Event.roomError "Room is full"])
      else
        let ares := addPlayer room socketId username
        (gm.setRoom code ares.1, ares.2)

/-! ### State invariant (claim C6) -/

/-- The spec §3 per-player invariant: `health > 0 ⟺ alive`, and ammo
within `0..MAX_AMMO`. -/
def playerInv (p : Player) : Prop :=
  (0 < p.health ↔ p.isAlive = true) ∧ 0 ≤ p.ammo ∧ p.ammo ≤ MAX_AMMO

instance (p : Player) : Decidable (playerInv p) := by
  unfold playerInv
  infer_instance

/-- The invariant over every player of a room. -/
def roomInv (r : Room) : Prop := ∀ p ∈ r.players, playerInv p

instance (r : Room) : Decidable (roomInv r) :=
  List.decidableBAll _ _

/-- Distinctness of the socket ids of a room, the key property of the
`players` Map. -/
def idsNodup (r : Room) : Prop :=
  (r.players.map Player.id).Nodup

instance (r : Room) : Decidable (idsNodup r) :=
  List.nodupDecidable _

/-! ### Concrete fixtures for witnesses and counterexamples -/

def pA : Player := Player.new "a" "alice"

def pB : Player := Player.new "b" "bob"

/-- A running two-player room, both players in their initial state. -/
def roomAB : Room := ⟨"ROOM", [pA, pB], true⟩

/-- The second player, dead at 0 health. -/
def pDead : Player := { pB with health := 0, isAlive := false }

/-- A running room whose second player is already dead. -/
def roomDead : Room := ⟨"ROOM", [pA, pDead], true⟩

/-- A registry holding the full room `roomAB` under code `AB12`. -/
def gmW : GameManager := ⟨[("AB12", roomAB)]⟩

/-! ### Geometry lemmas: scaling the ray direction -/

/-- Componentwise evaluation of `|a|`, convenient for `norm_num`. -/
lemma abs_ite (a : ℚ) : |a| = if a < 0 then -a else a := by
  rcases lt_or_ge a 0 with h | h
  · simp [abs_of_neg h, h]
  · simp [abs_of_nonneg h, not_lt.mpr h]

lemma EPS_pos : (0 : ℚ) < EPS := by norm_num [EPS]

lemma slabNarrow_scale (k : ℚ) (hk : 0 < k) (t1 t2 : ℚ)
    (s : Option (ℚ × ℚ)) :
    slabNarrow (t1 / k) (t2 / k) (scaleState k s) =
      Option.map (scaleState k) (slabNarrow t1 t2 s) := by
  cases s with
  | none =>
      rw [scaleState, Option.map_none', slabNarrow, slabNarrow]
      simp only [gt_iff_lt, div_lt_div_iff_of_pos_right hk]
      by_cases hab : t2 < t1
      · rw [if_pos hab, if_pos hab, Option.map_none']
      · rw [if_neg hab, if_neg hab, Option.map_some']; rfl
  | some ab =>
      rw [scaleState, Option.map_some', slabNarrow, slabNarrow]
      show (if max (ab.1 / k) (t1 / k) > min (ab.2 / k) (t2 / k) then none
          else some (some (max (ab.1 / k) (t1 / k), min (ab.2 / k) (t2 / k))))
        = _
      rw [max_div_div_right (le_of_lt hk), min_div_div_right (le_of_lt hk)]
      simp only [gt_iff_lt, div_lt_div_iff_of_pos_right hk]
      by_cases hab : min ab.2 t2 < max ab.1 t1
      · rw [if_pos hab, if_pos hab, Option.map_none']
      · rw [if_neg hab, if_neg hab, Option.map_some']; rfl

lemma slabAxis_scale (k : ℚ) (hk : 0 < k) (o dv mn mx : ℚ)
    (heps : |k * dv| < EPS ↔ |dv| < EPS) (s : Option (ℚ × ℚ)) :
    slabAxis o (k * dv) mn mx (scaleState k s) =
      Option.map (scaleState k) (slabAxis o dv mn mx s) := by
  have hk0 : k ≠ 0 := ne_of_gt hk
  by_cases h : |dv| < EPS
  · rw [slabAxis, slabAxis, if_pos (heps.mpr h), if_pos h]
    by_cases ho : o < mn ∨ o > mx
    · rw [if_pos ho, if_pos ho, Option.map_none']
    · rw [if_neg ho, if_neg ho, Option.map_some']
  · have hdv : dv ≠ 0 := by
      intro h0
      rw [h0, abs_zero] at h
      exact h EPS_pos
    have e1 : (mn - o) * (1 / (k * dv)) = (mn - o) * (1 / dv) / k := by
      rw [mul_comm k dv, ← div_div, ← mul_div_assoc]
    have e2 : (mx - o) * (1 / (k * dv)) = (mx - o) * (1 / dv) / k := by
      rw [mul_comm k dv, ← div_div, ← mul_div_assoc]
    rw [slabAxis, slabAxis, if_neg (fun hc => h (heps.mp hc)), if_neg h]
    simp only [e1, e2, gt_iff_lt, div_lt_div_iff_of_pos_right hk,
      ← apply_ite (fun x : ℚ => x / k)]
    exact slabNarrow_scale k hk _ _ s

lemma slabs3_scale (k : ℚ) (hk : 0 < k) (o d : Vec3)
    (mnX mxX mnY mxY mnZ mxZ : ℚ)
    (hx : |k * d.x| < EPS ↔ |d.x| < EPS)
    (hy : |k * d.y| < EPS ↔ |d.y| < EPS)
    (hz : |k * d.z| < EPS ↔ |d.z| < EPS) :
    slabs3 o (scaleVec k d) mnX mxX mnY mxY mnZ mxZ =
      Option.map (scaleState k) (slabs3 o d mnX mxX mnY mxY mnZ mxZ) := by
  rw [slabs3, slabs3]
  have h1 : slabAxis o.x (scaleVec k d).x mnX mxX none =
      Option.map (scaleState k) (slabAxis o.x d.x mnX mxX none) :=
    slabAxis_scale k hk o.x d.x mnX mxX hx none
  rw [h1]
  cases slabAxis o.x d.x mnX mxX none with
  | none => rfl
  | some s1 =>
      rw [Option.map_some', Option.some_bind, Option.some_bind]
      have h2 : slabAxis o.y (scaleVec k d).y mnY mxY (scaleState k s1) =
          Option.map (scaleState k) (slabAxis o.y d.y mnY mxY s1) :=
        slabAxis_scale k hk o.y d.y mnY mxY hy s1
      rw [h2]
      cases slabAxis o.y d.y mnY mxY s1 with
      | none => rfl
      | some s2 =>
          rw [Option.map_some', Option.some_bind, Option.some_bind]
          exact slabAxis_scale k hk o.z d.z mnZ mxZ hz s2

lemma finishHit_scale (k : ℚ) (hk : 0 < k) (o d : Vec3) (maxY height : ℚ)
    (s3 : Option (ℚ × ℚ)) :
    finishHit o (scaleVec k d) maxY height (scaleState k s3) =
      ⟨(finishHit o d maxY height s3).hit,
       (finishHit o d maxY height s3).headshot,
       (finishHit o d maxY height s3).distance.map fun u => u / k⟩ := by
  cases s3 with
  | none =>
      rw [scaleState, Option.map_none', finishHit, finishHit]
      have hyiff : 0 < (scaleVec k d).y ↔ 0 < d.y := by
        show 0 < k * d.y ↔ 0 < d.y
        constructor
        · intro hpos
          by_contra hneg
          push_neg at hneg
          nlinarith
        · exact fun hpos => mul_pos hk hpos
      rw [if_congr hyiff rfl rfl]
      simp
  | some tt =>
      rw [scaleState, Option.map_some', finishHit, finishHit]
      show (if tt.2 / k < 0 then missResult else _) = _
      have hcond : tt.2 / k < 0 ↔ tt.2 < 0 := by
        rw [div_lt_iff₀ hk, zero_mul]
      rw [if_congr hcond rfl rfl]
      by_cases hbehind : tt.2 < 0
      · rw [if_pos hbehind, if_pos hbehind]
        rw [missResult]
        norm_num
      · rw [if_neg hbehind, if_neg hbehind]
        have hge : tt.1 / k ≥ 0 ↔ tt.1 ≥ 0 := by
          rw [ge_iff_le, ge_iff_le, le_div_iff₀ hk, zero_mul]
        have htHit : (if tt.1 / k ≥ 0 then tt.1 / k else tt.2 / k) =
            (if tt.1 ≥ 0 then tt.1 else tt.2) / k := by
          rw [if_congr hge rfl rfl, apply_ite (fun x : ℚ => x / k)]
        simp only [htHit]
        have hmul : ∀ u : ℚ, k * d.y * (u / k) = d.y * u := by
          intro u
          have hk0 : k ≠ 0 := ne_of_gt hk
          field_simp
          ring
        have hyeq : o.y + (scaleVec k d).y *
            ((if tt.1 ≥ 0 then tt.1 else tt.2) / k) =
            o.y + d.y * (if tt.1 ≥ 0 then tt.1 else tt.2) := by
          show o.y + k * d.y * _ = _
          rw [hmul]
        rw [hyeq]
        simp

/-- The claim C7 amendment: scaling the direction by a positive `k`
preserves the hit and headshot verdicts and divides the distance by `k`,
provided the scaling does not move any component across the `1e-8`
parallel-axis epsilon (the counterexample below shows the claim fails
without that proviso). -/
theorem checkHit_renormalize (o d t : Vec3) (c : HitConstants) (k : ℚ)
    (hk : 0 < k)
    (hx : |k * d.x| < EPS ↔ |d.x| < EPS)
    (hy : |k * d.y| < EPS ↔ |d.y| < EPS)
    (hz : |k * d.z| < EPS ↔ |d.z| < EPS) :
    (checkHit o (scaleVec k d) t c).hit = (checkHit o d t c).hit ∧
    (checkHit o (scaleVec k d) t c).headshot = (checkHit o d t c).headshot ∧
    (checkHit o (scaleVec k d) t c).distance =
      (checkHit o d t c).distance.map fun u => u / k := by
  rw [checkHit, checkHit,
    slabs3_scale k hk o d _ _ _ _ _ _ hx hy hz]
  cases slabs3 o d (t.x - c.radius) (t.x + c.radius)
      (t.y - c.height / 2) (t.y + c.height / 2)
      (t.z - c.radius) (t.z + c.radius) with
  | none =>
      rw [Option.map_none', finishAll, finishAll]
      refine ⟨rfl, rfl, ?_⟩
      rw [missResult]
      norm_num
  | some s3 =>
      rw [Option.map_some', finishAll, finishAll,
        finishHit_scale k hk o d _ c.height s3]
      exact ⟨rfl, rfl, rfl⟩

/-- Witness for `checkHit_renormalize` (claim C7): scaling the fixture
direction `(0,0,1)` by `k = 2` keeps the verdict; every hypothesis is
discharged at the concrete input. -/
theorem checkHit_renormalize_witness :
    (checkHit ⟨0, 1, -10⟩ (scaleVec 2 ⟨0, 0, 1⟩) ⟨0, 1, 0⟩
        GAME_HIT_CONSTANTS).hit =
      (checkHit ⟨0, 1, -10⟩ ⟨0, 0, 1⟩ ⟨0, 1, 0⟩ GAME_HIT_CONSTANTS).hit ∧
    (checkHit ⟨0, 1, -10⟩ (scaleVec 2 ⟨0, 0, 1⟩) ⟨0, 1, 0⟩
        GAME_HIT_CONSTANTS).headshot =
      (checkHit ⟨0, 1, -10⟩ ⟨0, 0, 1⟩ ⟨0, 1, 0⟩ GAME_HIT_CONSTANTS).headshot ∧
    (checkHit ⟨0, 1, -10⟩ (scaleVec 2 ⟨0, 0, 1⟩) ⟨0, 1, 0⟩
        GAME_HIT_CONSTANTS).distance =
      (checkHit ⟨0, 1, -10⟩ ⟨0, 0, 1⟩ ⟨0, 1, 0⟩
        GAME_HIT_CONSTANTS).distance.map fun u => u / 2 :=
  checkHit_renormalize ⟨0, 1, -10⟩ ⟨0, 0, 1⟩ ⟨0, 1, 0⟩ GAME_HIT_CONSTANTS 2
    (by norm_num)
    (by norm_num [EPS, abs_ite])
    (by norm_num [EPS, abs_ite])
    (by norm_num [EPS, abs_ite])

/-- Counterexample to claim C7 as stated: scaling a direction by a
positive scalar can change the hit verdict when a component crosses the
`1e-8` parallel-axis epsilon.  The direction `(-1e-9, 0, 0)` is treated
as parallel to the X slabs (origin outside them: miss), while the same
direction scaled by `100` is treated as a genuine X ray (hit). -/
theorem checkHit_scaling_cex :
    (0 : ℚ) < 100 ∧
    (checkHit ⟨10, 1, 0⟩ ⟨-1 / 1000000000, 0, 0⟩ ⟨0, 1, 0⟩
        GAME_HIT_CONSTANTS).hit = false ∧
    (checkHit ⟨10, 1, 0⟩ (scaleVec 100 ⟨-1 / 1000000000, 0, 0⟩) ⟨0, 1, 0⟩
        GAME_HIT_CONSTANTS).hit = true := by
  refine ⟨by norm_num, ?_, ?_⟩ <;>
    norm_num [checkHit, slabs3, slabAxis, slabNarrow, finishAll, finishHit,
      scaleVec, GAME_HIT_CONSTANTS, PLAYER_HEIGHT, PLAYER_RADIUS, EPS,
      missResult, abs_ite]

/-- Counterexample to claim C1 as stated: the fixture ray from
`(0,1,-10)` along `(0,0,1)` against a target centred at `(0,1.8,0)` does
hit the box, but at height `y = 1`, inside its lower 70% (the box spans
`[0.9, 2.7]` and the headshot band starts at `2.16`), so `headshot` is
`false`, not `true`. -/
theorem checkHit_raised_target_cex :
    (checkHit ⟨0, 1, -10⟩ ⟨0, 0, 1⟩ ⟨0, 9 / 5, 0⟩
        GAME_HIT_CONSTANTS).hit = true ∧
    (checkHit ⟨0, 1, -10⟩ ⟨0, 0, 1⟩ ⟨0, 9 / 5, 0⟩
        GAME_HIT_CONSTANTS).headshot = false := by
  constructor <;>
    norm_num [checkHit, slabs3, slabAxis, slabNarrow, finishAll, finishHit,
      GAME_HIT_CONSTANTS, PLAYER_HEIGHT, PLAYER_RADIUS, EPS,
      missResult, abs_ite]

/-- Claim C1 as amended: with the player half-extents
`(0.4, 0.9, 0.4)`, the fixture ray against a target centred at `(0,1,0)`
returns `hit = true`, `headshot = false` (distance `9.6`), and the same
ray against a target centred at `(0,1.8,0)` also returns `hit = true`
with `headshot = false` — the horizontal ray enters that raised box near
its bottom, not in the top 30% band. -/
theorem checkHit_fixture_rays :
    checkHit ⟨0, 1, -10⟩ ⟨0, 0, 1⟩ ⟨0, 1, 0⟩ GAME_HIT_CONSTANTS =
      ⟨true, false, some (48 / 5)⟩ ∧
    checkHit ⟨0, 1, -10⟩ ⟨0, 0, 1⟩ ⟨0, 9 / 5, 0⟩ GAME_HIT_CONSTANTS =
      ⟨true, false, some (48 / 5)⟩ := by
  constructor <;>
    norm_num [checkHit, slabs3, slabAxis, slabNarrow, finishAll, finishHit,
      GAME_HIT_CONSTANTS, PLAYER_HEIGHT, PLAYER_RADIUS, EPS,
      missResult, abs_ite]

/-! ### Shoot-request guards (claims C2 and C3) -/

/-- Claim C3 as amended: a shot from a living, non-reloading player whose
cooldown has not yet elapsed is denied with the typed reason `cooldown`
(the source's wire string; the spec's name for it is `on-cooldown`) and
the room state — every player's ammo and health included — is unchanged. -/
theorem shoot_cooldown_denied (r : Room) (socketId : String)
    (origin? direction? : Option Vec3) (len : ℚ) (now : ℤ) (q : Player)
    (hfind : r.find socketId = some q)
    (halive : q.isAlive = true)
    (hrel : q.isReloading = false)
    (hcd : now - q.lastShotTime < SHOT_COOLDOWN) :
    handlePlayerShoot r socketId origin? direction? len now =
      (r, [Event.shootDenied socketId "cooldown"]) := by
  simp [handlePlayerShoot, hfind, halive, hrel, hcd]

/-- Witness for `shoot_cooldown_denied` (claim C3): 10 ms after the last
shot of a fresh player, 1490 ms short of the 1500 ms cooldown. -/
theorem shoot_cooldown_denied_witness :
    handlePlayerShoot roomAB "a" none (some ⟨0, 0, 1⟩) 1 10 =
      (roomAB, [Event.shootDenied "a" "cooldown"]) :=
  shoot_cooldown_denied roomAB "a" none (some ⟨0, 0, 1⟩) 1 10 pA rfl rfl rfl
    (by decide)

/-- Counterexample to claim C3 as stated: the denial reason emitted by
the code is the string `cooldown`, not `on-cooldown`. -/
theorem shoot_cooldown_reason_cex :
    (handlePlayerShoot roomAB "a" none (some ⟨0, 0, 1⟩) 1 10).2 =
      [Event.shootDenied "a" "cooldown"] ∧
    Event.shootDenied "a" "on-cooldown" ∉
      (handlePlayerShoot roomAB "a" none (some ⟨0, 0, 1⟩) 1 10).2 := by
  decide

/-- Claim C2 as amended: a shot whose direction has zero length
(`len = 0`) is rejected with no denial message and no hit test, but only
after the ammo has been decremented and `lastShotTime` stamped — the
rejection does not restore them. -/
theorem shoot_zero_length_rejected (r : Room) (socketId : String)
    (origin? : Option Vec3) (d : Vec3) (now : ℤ) (q : Player)
    (hfind : r.find socketId = some q)
    (halive : q.isAlive = true)
    (hrel : q.isReloading = false)
    (hcd : ¬ now - q.lastShotTime < SHOT_COOLDOWN)
    (hammo : ¬ q.ammo ≤ 0) :
    handlePlayerShoot r socketId origin? (some d) 0 now =
      (r.update socketId fun p =>
        { p with ammo := p.ammo - 1, lastShotTime := now }, []) := by
  simp [handlePlayerShoot, hfind, halive, hrel, hcd, hammo]

/-- Witness for `shoot_zero_length_rejected` (claim C2). -/
theorem shoot_zero_length_rejected_witness :
    handlePlayerShoot roomAB "a" none (some ⟨0, 0, 0⟩) 0 2000 =
      (roomAB.update "a" fun p =>
        { p with ammo := p.ammo - 1, lastShotTime := 2000 }, []) :=
  shoot_zero_length_rejected roomAB "a" none ⟨0, 0, 0⟩ 2000 pA rfl rfl rfl
    (by decide) (by decide)

/-- Counterexample to claim C2 as stated: a zero-length shot from a full
player leaves the shooter with 4 rounds, not 5 — the state is changed
even though the shot is rejected before any hit test. -/
theorem shoot_zero_length_cex :
    (handlePlayerShoot roomAB "a" none (some ⟨0, 0, 0⟩) 0 2000).1 ≠ roomAB ∧
    ((handlePlayerShoot roomAB "a" none (some ⟨0, 0, 0⟩) 0 2000).1.find
      "a").map Player.ammo = some 4 ∧
    (roomAB.find "a").map Player.ammo = some 5 ∧
    (handlePlayerShoot roomAB "a" none (some ⟨0, 0, 0⟩) 0 2000).2 = [] := by
  decide

/-! ### Move requests (claim C9) -/

/-- Claim C9: a `player:update` from a living player only rewrites that
player's position and rotation — an omitted field keeps its old value
(`Option.getD`), every other field of the player and every other player
(and the room code and running flag) are untouched. -/
theorem playerUpdate_frame (r : Room) (socketId : String)
    (pos? rot? : Option Vec3) (q : Player)
    (hfind : r.find socketId = some q)
    (halive : q.isAlive = true) :
    handlePlayerUpdate r socketId pos? rot? =
      { r with players := r.players.map fun p =>
          if p.id == socketId then
            { p with position := pos?.getD p.position,
                     rotation := rot?.getD p.rotation }
          else p } := by
  rcases pos? with _ | v <;> rcases rot? with _ | w <;>
    simp [handlePlayerUpdate, hfind, halive, Room.update, Option.getD]

/-- Witness for `playerUpdate_frame` (claim C9). -/
theorem playerUpdate_frame_witness :
    handlePlayerUpdate roomAB "a" (some ⟨2, 3, 4⟩) none =
      { roomAB with players := roomAB.players.map fun p =>
          if p.id == "a" then
            { p with position := (some (⟨2, 3, 4⟩ : Vec3)).getD p.position,
                     rotation := (none : Option Vec3).getD p.rotation }
          else p } :=
  playerUpdate_frame roomAB "a" (some ⟨2, 3, 4⟩) none pA rfl rfl

/-! ### Reload-timer firing (claim C10) -/

/-- Claim C10: the reload timer callback checks only that the player is
still in the room — there is no aliveness guard, so a player who died
mid-reload still gets `ammo = MAX_AMMO` and `isReloading = false`; when
the player has left the room the firing is a silent no-op. -/
theorem reloadTimer_existence_only (r : Room) (socketId : String) :
    (∀ q, r.find socketId = some q →
      reloadTimerFire r socketId =
        ({ r with players := r.players.map fun p =>
            if p.id == socketId then
              { p with ammo := MAX_AMMO, isReloading := false }
            else p },
         [Event.playerReloaded socketId MAX_AMMO])) ∧
    (r.find socketId = none → reloadTimerFire r socketId = (r, [])) := by
  constructor
  · intro q hq
    simp [reloadTimerFire, hq, Room.update]
  · intro hq
    simp [reloadTimerFire, hq]

/-- Witness for `reloadTimer_existence_only` (claim C10): the timer fires
for the dead player of `roomDead`, and the refill still happens. -/
theorem reloadTimer_existence_only_witness :
    reloadTimerFire roomDead "b" =
      ({ roomDead with players := roomDead.players.map fun p =>
          if p.id == "b" then
            { p with ammo := MAX_AMMO, isReloading := false }
          else p },
       [Event.playerReloaded "b" MAX_AMMO]) :=
  (reloadTimer_existence_only roomDead "b").1 pDead rfl

/-! ### Lethal hits (claim C4) -/

/-- Claim C4 as amended, for a two-player room: a hit whose damage
reaches the target's remaining health clamps health to 0, flips the
target's `isAlive` from true to false, and increments the shooter's kills
and the target's deaths by exactly 1, all in the one shot (first
conjunct, stated as a full post-state equality, so nothing else changes
and nothing is counted twice); a subsequent shot processed against the
now-dead target leaves the target and all kill/death counters untouched
and resolves as a miss, but — contrary to the claim's "changes no state"
— it still decrements the shooter's ammo and stamps `lastShotTime`
(second conjunct). -/
theorem lethal_hit_exactly_once (rc : String) (running : Bool)
    (s t : Player) (origin? : Option Vec3) (d : Vec3) (len : ℚ) (now : ℤ)
    (hst : t.id ≠ s.id)
    (halive : s.isAlive = true)
    (hrel : s.isReloading = false)
    (hcd : ¬ now - s.lastShotTime < SHOT_COOLDOWN)
    (hammo : ¬ s.ammo ≤ 0)
    (hlen : ¬ len = 0) :
    (t.isAlive = true →
      ∀ hs : Bool,
        (checkHit (origin?.getD s.position) ⟨d.x / len, d.y / len, d.z / len⟩
          t.position GAME_HIT_CONSTANTS).hit = true →
        (checkHit (origin?.getD s.position) ⟨d.x / len, d.y / len, d.z / len⟩
          t.position GAME_HIT_CONSTANTS).headshot = hs →
        t.health ≤ (if hs then HEADSHOT_DAMAGE else BODY_DAMAGE) →
        handlePlayerShoot ⟨rc, [s, t], running⟩ s.id origin? (some d) len now =
          (⟨rc, [{ s with ammo := s.ammo - 1, lastShotTime := now, kills := s.kills + 1 },
                 { t with health := 0, isAlive := false, deaths := t.deaths + 1 }], running⟩,
           [Event.hitConfirmed s.id t.id
              (if hs then HEADSHOT_DAMAGE else BODY_DAMAGE) hs,
            Event.playerKilled s.id t.id hs,
            Event.playerDied t.id s.username 3,
            Event.armRespawnTimer t.id])) ∧
    (t.isAlive = false →
      handlePlayerShoot ⟨rc, [s, t], running⟩ s.id origin? (some d) len now =
        (⟨rc, [{ s with ammo := s.ammo - 1, lastShotTime := now }, t], running⟩,
         [Event.shootMiss s.id])) := by
  have hst2 : s.id ≠ t.id := Ne.symm hst
  constructor
  · intro htAlive hs hhit hhs hlethal
    have hdmg : t.health - (if hs then HEADSHOT_DAMAGE else BODY_DAMAGE) ≤ 0 := by
      omega
    have hceil : ⌈(RESPAWN_TIME : ℚ) / 1000⌉ = (3 : ℤ) := by
      norm_num [RESPAWN_TIME]
    simp [handlePlayerShoot, Room.find, Room.update, hst, hst2, halive, hrel,
      hcd, hammo, hlen, nearestHit, shootStep, betterHit, htAlive, hhit, hhs,
      Player.takeDamage, hdmg, handlePlayerDeath, hceil]
  · intro htDead
    simp [handlePlayerShoot, Room.find, Room.update, hst, hst2, halive, hrel,
      hcd, hammo, hlen, nearestHit, shootStep, betterHit, htDead]

/-- Witness for `lethal_hit_exactly_once` (claim C4): a body shot for 65
against a player at 40 health, then the no-op part against the dead
player. -/
theorem lethal_hit_exactly_once_witness :
    handlePlayerShoot ⟨"ROOM", [pA, { pB with health := 40 }], true⟩ "a"
        (some ⟨0, 1, -10⟩) (some ⟨0, 0, 1⟩) 1 2000 =
      (⟨"ROOM", [{ pA with ammo := pA.ammo - 1, lastShotTime := 2000, kills := pA.kills + 1 },
                 { pB with health := 0, isAlive := false, deaths := pB.deaths + 1 }], true⟩,
       [Event.hitConfirmed "a" "b" 65 false,
        Event.playerKilled "a" "b" false,
        Event.playerDied "b" "alice" 3,
        Event.armRespawnTimer "b"]) :=
  (lethal_hit_exactly_once "ROOM" true pA { pB with health := 40 }
      (some ⟨0, 1, -10⟩) ⟨0, 0, 1⟩ 1 2000 (by decide) rfl rfl (by decide)
      (by decide) (by norm_num)).1 rfl false
    (by norm_num [checkHit, slabs3, slabAxis, slabNarrow, finishAll,
      finishHit, GAME_HIT_CONSTANTS, PLAYER_HEIGHT, PLAYER_RADIUS, EPS,
      missResult, abs_ite, pB, Player.new])
    (by norm_num [checkHit, slabs3, slabAxis, slabNarrow, finishAll,
      finishHit, GAME_HIT_CONSTANTS, PLAYER_HEIGHT, PLAYER_RADIUS, EPS,
      missResult, abs_ite, pB, Player.new])
    (by decide)

/-- Counterexample to claim C4 as stated: a shot processed against an
already-dead target is not a complete no-op — the shooter's ammo drops
from 5 to 4 (and `lastShotTime` is stamped), though the dead target and
all kill/death counters are untouched and the shot resolves as a miss. -/
theorem shoot_dead_target_cex :
    (handlePlayerShoot roomDead "a" none (some ⟨0, 0, 1⟩) 1 2000).1 ≠
      roomDead ∧
    ((handlePlayerShoot roomDead "a" none (some ⟨0, 0, 1⟩) 1 2000).1.find
      "a").map Player.ammo = some 4 ∧
    (roomDead.find "a").map Player.ammo = some 5 ∧
    (handlePlayerShoot roomDead "a" none (some ⟨0, 0, 1⟩) 1 2000).1.find "b" =
      some pDead ∧
    (handlePlayerShoot roomDead "a" none (some ⟨0, 0, 1⟩) 1 2000).2 =
      [Event.shootMiss "a"] := by
  decide

/-! ### Respawn (claim C5) -/

lemma sqDist_nonneg (a b : Vec3) : 0 ≤ sqDist a b := by
  unfold sqDist
  have h1 := mul_self_nonneg (a.x - b.x)
  have h2 := mul_self_nonneg (a.y - b.y)
  have h3 := mul_self_nonneg (a.z - b.z)
  linarith

lemma foldl_spawn_argmax (op : Vec3) (l : List Vec3) :
    ∀ (b0 : Vec3) (d0 : ℚ),
      (l.foldl (spawnStep op) (b0, d0) = (b0, d0) ∧
        ∀ sp ∈ l, sqDist sp op ≤ d0) ∨
      (sqDist (l.foldl (spawnStep op) (b0, d0)).1 op =
          (l.foldl (spawnStep op) (b0, d0)).2 ∧
        d0 < (l.foldl (spawnStep op) (b0, d0)).2 ∧
        isFirstArgmax op l (l.foldl (spawnStep op) (b0, d0)).1) := by
  induction l with
  | nil => exact fun b0 d0 => Or.inl ⟨rfl, by simp⟩
  | cons hd tl ih =>
      intro b0 d0
      rw [List.foldl_cons]
      by_cases hh : sqDist hd op > d0
      · rw [spawnStep, if_pos hh]
        right
        rcases ih hd (sqDist hd op) with ⟨heq, hall⟩ | ⟨heq, hgt, l1, l2, hdec, hlt, hle⟩
        · rw [heq]
          exact ⟨rfl, hh, [], tl, rfl, by simp, hall⟩
        · refine ⟨heq, lt_trans hh hgt, hd :: l1, l2, ?_, ?_, hle⟩
          · rw [List.cons_append, ← hdec]
          · intro sp hsp
            rcases List.mem_cons.mp hsp with h | h
            · rw [h, heq]
              exact hgt
            · exact hlt sp h
      · rw [spawnStep, if_neg hh]
        push_neg at hh
        rcases ih b0 d0 with ⟨heq, hall⟩ | ⟨heq, hgt, l1, l2, hdec, hlt, hle⟩
        · left
          refine ⟨heq, ?_⟩
          intro sp hsp
          rcases List.mem_cons.mp hsp with h | h
          · rw [h]
            exact hh
          · exact hall sp h
        · right
          refine ⟨heq, hgt, hd :: l1, l2, ?_, ?_, hle⟩
          · rw [List.cons_append, ← hdec]
          · intro sp hsp
            rcases List.mem_cons.mp hsp with h | h
            · rw [h, heq]
              exact lt_of_le_of_lt hh hgt
            · exact hlt sp h

lemma find?_map_update (i : String) (f : Player → Player)
    (hpres : ∀ p, (f p).id = p.id) (l : List Player) :
    ((l.map fun p => if p.id == i then f p else p).find? fun p => p.id == i) =
      (l.find? fun p => p.id == i).map f := by
  induction l with
  | nil => rfl
  | cons hd tl ih =>
      rw [List.map_cons]
      by_cases h : hd.id = i
      · have hb : (hd.id == i) = true := beq_iff_eq.mpr h
        have hfb : ((f hd).id == i) = true := beq_iff_eq.mpr (by rw [hpres, h])
        rw [if_pos hb,
          @List.find?_cons_of_pos _ (fun p => p.id == i) (f hd) _ hfb,
          @List.find?_cons_of_pos _ (fun p => p.id == i) hd _ hb,
          Option.map_some']
      · have hb : ¬ ((hd.id == i) = true) := by simp [h]
        rw [if_neg hb,
          @List.find?_cons_of_neg _ (fun p => p.id == i) hd _ hb,
          @List.find?_cons_of_neg _ (fun p => p.id == i) hd _ hb, ih]

lemma Room.find_update_self (r : Room) (i : String) (f : Player → Player)
    (hpres : ∀ p, (f p).id = p.id) :
    (r.update i f).find i = (r.find i).map f :=
  find?_map_update i f hpres r.players

lemma filter_map_update (i : String) (f : Player → Player)
    (hpres : ∀ p, (f p).id = p.id) (l : List Player) :
    ((l.map fun p => if p.id == i then f p else p).filter fun p => !(p.id == i)) =
      l.filter fun p => !(p.id == i) := by
  induction l with
  | nil => rfl
  | cons hd tl ih =>
      rw [List.map_cons]
      by_cases h : hd.id = i
      · have hb : (hd.id == i) = true := beq_iff_eq.mpr h
        have hfb : ¬ ((!((f hd).id == i)) = true) := by simp [hpres, h]
        have hnb : ¬ ((!(hd.id == i)) = true) := by simp [h]
        rw [if_pos hb,
          @List.filter_cons_of_neg _ (fun p => !(p.id == i)) (f hd) _ hfb,
          @List.filter_cons_of_neg _ (fun p => !(p.id == i)) hd _ hnb, ih]
      · have hb : ¬ ((hd.id == i) = true) := by simp [h]
        have hnb : (!(hd.id == i)) = true := by simp [h]
        rw [if_neg hb,
          @List.filter_cons_of_pos _ (fun p => !(p.id == i)) hd _ hnb,
          @List.filter_cons_of_pos _ (fun p => !(p.id == i)) hd _ hnb, ih]

lemma foldl_other_of_filter_nil (i : String) : ∀ (l : List Player),
    l.filter (fun p => !(p.id == i)) = [] → ∀ acc : Option Vec3,
      l.foldl (fun acc p => if p.id == i then acc else some p.position) acc =
        acc := by
  intro l
  induction l with
  | nil => intro _ acc; rfl
  | cons hd tl ih =>
      intro hfil acc
      by_cases h : hd.id = i
      · have hb : (hd.id == i) = true := beq_iff_eq.mpr h
        have hnb : ¬ ((!(hd.id == i)) = true) := by simp [h]
        rw [@List.filter_cons_of_neg _ (fun p => !(p.id == i)) hd _ hnb] at hfil
        rw [List.foldl_cons, if_pos hb]
        exact ih hfil acc
      · have hnb : (!(hd.id == i)) = true := by simp [h]
        rw [@List.filter_cons_of_pos _ (fun p => !(p.id == i)) hd _ hnb] at hfil
        exact absurd hfil (by simp)

lemma foldl_other_of_filter_one (i : String) (o : Player) : ∀ (l : List Player),
    l.filter (fun p => !(p.id == i)) = [o] → ∀ acc : Option Vec3,
      l.foldl (fun acc p => if p.id == i then acc else some p.position) acc =
        some o.position := by
  intro l
  induction l with
  | nil => intro h; simp at h
  | cons hd tl ih =>
      intro hfil acc
      by_cases h : hd.id = i
      · have hb : (hd.id == i) = true := beq_iff_eq.mpr h
        have hnb : ¬ ((!(hd.id == i)) = true) := by simp [h]
        rw [@List.filter_cons_of_neg _ (fun p => !(p.id == i)) hd _ hnb] at hfil
        rw [List.foldl_cons, if_pos hb]
        exact ih hfil acc
      · have hb : ¬ ((hd.id == i) = true) := by simp [h]
        have hnb : (!(hd.id == i)) = true := by simp [h]
        rw [@List.filter_cons_of_pos _ (fun p => !(p.id == i)) hd _ hnb,
          List.cons_eq_cons] at hfil
        obtain ⟨rfl, htl⟩ := hfil
        rw [List.foldl_cons, if_neg hb]
        exact foldl_other_of_filter_nil i tl htl (some hd.position)

/-- Claim C5: when the respawn timer fires for a player still present,
they come back with full health and ammo, `isAlive = true`, kills and
deaths untouched, and the spawn point is the pool entry that maximizes
squared Euclidean distance to the other participant's current position —
the first maximal entry in pool order on ties (`isFirstArgmax`), from a
pool of 4 fixed points — or the first pool entry when nobody else is in
the room.  (The source reads the other participant's position without an
aliveness check; the claim's "other living participant" case is the one
stated here, with the other participant alive.) -/
theorem respawn_spec (r : Room) (pid : String) (q : Player)
    (hfind : r.find pid = some q) :
    (∀ o : Player,
        r.players.filter (fun p => !(p.id == pid)) = [o] → o.isAlive = true →
      ∃ q2, (respawnPlayer r pid).1.find pid = some q2 ∧
        q2.health = MAX_HEALTH ∧ q2.ammo = MAX_AMMO ∧ q2.isAlive = true ∧
        q2.kills = q.kills ∧ q2.deaths = q.deaths ∧
        (∀ sp ∈ SPAWN_POINTS,
          sqDist sp o.position ≤ sqDist q2.position o.position) ∧
        isFirstArgmax o.position SPAWN_POINTS q2.position) ∧
    (r.players.filter (fun p => !(p.id == pid)) = [] →
      ∃ q2, (respawnPlayer r pid).1.find pid = some q2 ∧
        q2.health = MAX_HEALTH ∧ q2.ammo = MAX_AMMO ∧ q2.isAlive = true ∧
        q2.kills = q.kills ∧ q2.deaths = q.deaths ∧
        q2.position = SPAWN_POINTS.headI) ∧
    SPAWN_POINTS.length = 4 := by
  have hres1 : (respawnPlayer r pid).1 =
      (r.update pid Player.reset).update pid fun p =>
        { p with position := getSpawnPoint (r.update pid Player.reset) pid } := by
    simp only [respawnPlayer, hfind]
  have hfind1 : (r.update pid Player.reset).find pid =
      some (Player.reset q) := by
    rw [Room.find_update_self r pid Player.reset fun p => rfl, hfind,
      Option.map_some']
  have hfind2 : (respawnPlayer r pid).1.find pid =
      some { Player.reset q with
        position := getSpawnPoint (r.update pid Player.reset) pid } := by
    rw [hres1,
      Room.find_update_self (r.update pid Player.reset) pid
        (fun p =>
          { p with position := getSpawnPoint (r.update pid Player.reset) pid })
        fun p => rfl,
      hfind1]
    rfl
  have hfil1 : ((r.update pid Player.reset).players.filter
      fun p => !(p.id == pid)) = r.players.filter fun p => !(p.id == pid) :=
    filter_map_update pid Player.reset (fun p => rfl) r.players
  refine ⟨?_, ?_, rfl⟩
  · intro o hfil halive
    have hother : getSpawnPoint (r.update pid Player.reset) pid =
        (SPAWN_POINTS.foldl (spawnStep o.position)
          (SPAWN_POINTS.headI, (-1 : ℚ))).1 := by
      rw [getSpawnPoint]
      rw [foldl_other_of_filter_one pid o _ (hfil1.trans hfil) none]
    rcases foldl_spawn_argmax o.position SPAWN_POINTS SPAWN_POINTS.headI (-1)
      with ⟨_, hall⟩ | ⟨heq, hgt, hfam⟩
    · exfalso
      have hmem : SPAWN_POINTS.headI ∈ SPAWN_POINTS := by
        rw [SPAWN_POINTS]
        exact List.mem_cons_self _ _
      have h1 := hall SPAWN_POINTS.headI hmem
      have h2 := sqDist_nonneg SPAWN_POINTS.headI o.position
      linarith
    · refine ⟨{ Player.reset q with
          position := getSpawnPoint (r.update pid Player.reset) pid },
        hfind2, rfl, rfl, rfl, rfl, rfl, ?_, ?_⟩
      · intro sp hsp
        rcases hfam with ⟨l1, l2, hdec, hlt, hle⟩
        rw [hother]
        rw [hdec] at hsp
        rcases List.mem_append.mp hsp with h | h
        · exact le_of_lt (hlt sp h)
        · rcases List.mem_cons.mp h with h | h
          · rw [h]
          · exact hle sp h
      · show isFirstArgmax o.position SPAWN_POINTS
          (getSpawnPoint (r.update pid Player.reset) pid)
        rw [hother]
        exact hfam
  · intro hfil
    have hother : getSpawnPoint (r.update pid Player.reset) pid =
        SPAWN_POINTS.headI := by
      rw [getSpawnPoint]
      rw [foldl_other_of_filter_nil pid _ (hfil1.trans hfil) none]
    exact ⟨{ Player.reset q with
        position := getSpawnPoint (r.update pid Player.reset) pid },
      hfind2, rfl, rfl, rfl, rfl, rfl, hother⟩

/-- Witness for `respawn_spec` (claim C5): the dead player of `roomDead`
respawns; the other player `pA` is alive at `(0, 1, 0)`. -/
theorem respawn_spec_witness :
    ∃ q2, (respawnPlayer roomDead "b").1.find "b" = some q2 ∧
      q2.health = MAX_HEALTH ∧ q2.ammo = MAX_AMMO ∧ q2.isAlive = true ∧
      q2.kills = pDead.kills ∧ q2.deaths = pDead.deaths ∧
      (∀ sp ∈ SPAWN_POINTS,
        sqDist sp pA.position ≤ sqDist q2.position pA.position) ∧
      isFirstArgmax pA.position SPAWN_POINTS q2.position :=
  (respawn_spec roomDead "b" pDead rfl).1 pA (by decide) rfl

/-! ### Joining a room (claim C8) -/

/-- Claim C8: a `room:join` request normalizes the room code
case-insensitively (the outcome depends only on the uppercased code);
with no live session under the normalized code it fails with the
not-found error, and with a full (2-player) session it fails with the
room-full error; in both failure cases the registry and every session's
participant set are untouched (the whole `GameManager` is returned
unchanged). -/
theorem roomJoin_spec (gm : GameManager) (socketId c u : String)
    (hu : u ≠ "") (hc : c ≠ "") :
    (∀ c2, c2 ≠ "" → jsToUpper c = jsToUpper c2 →
      roomJoin gm socketId c u = roomJoin gm socketId c2 u) ∧
    (gm.findRoom (jsToUpper c) = none →
      roomJoin gm socketId c u = (gm, [Event.roomError "Room not found"])) ∧
    (∀ room, gm.findRoom (jsToUpper c) = some room → room.players.length ≥ 2 →
      roomJoin gm socketId c u = (gm, [Event.roomError "Room is full"])) := by
  refine ⟨?_, ?_, ?_⟩
  · intro c2 hc2 hup
    rw [roomJoin, roomJoin, if_neg hu, if_neg hu, if_neg hc, if_neg hc2, hup]
  · intro hfind
    simp [roomJoin, hu, hc, hfind]
  · intro room hfind hfull
    simp [roomJoin, hu, hc, hfind, hfull]

/-- Witness for `roomJoin_spec` (claim C8): joining `ab12` (full) and
`zzzz` (absent) against a registry holding `AB12`. -/
theorem roomJoin_spec_witness :
    roomJoin gmW "s" "ab12" "bob" = (gmW, [Event.roomError "Room is full"]) ∧
    roomJoin gmW "s" "zzzz" "bob" =
      (gmW, [Event.roomError "Room not found"]) ∧
    roomJoin gmW "s" "ab12" "bob" = roomJoin gmW "s" "AB12" "bob" :=
  ⟨(roomJoin_spec gmW "s" "ab12" "bob" (by decide) (by decide)).2.2 roomAB
      (by decide) (by decide),
   (roomJoin_spec gmW "s" "zzzz" "bob" (by decide) (by decide)).2.1 (by decide),
   (roomJoin_spec gmW "s" "ab12" "bob" (by decide) (by decide)).1 "AB12"
      (by decide) (by decide)⟩

/-! ### The health/alive/ammo invariant (claim C6) -/

lemma playerInv_takeDamage (p : Player) (amt : ℤ) (h : playerInv p) :
    playerInv (p.takeDamage amt).1 := by
  rcases h with ⟨hha, ham1, ham2⟩
  rw [playerInv, Player.takeDamage]
  by_cases h1 : p.isAlive = false
  · rw [if_pos h1]
    exact ⟨hha, ham1, ham2⟩
  · rw [if_neg h1]
    by_cases h2 : p.health - amt ≤ 0
    · rw [if_pos h2]
      refine ⟨?_, ham1, ham2⟩
      simp
    · rw [if_neg h2]
      refine ⟨?_, ham1, ham2⟩
      push_neg at h2
      simp only [h2, true_iff]
      rw [Bool.not_eq_false] at h1
      exact h1

lemma playerInv_reset (p : Player) : playerInv p.reset := by
  rw [playerInv, Player.reset]
  refine ⟨by simp [MAX_HEALTH], by norm_num [MAX_AMMO]⟩

lemma playerInv_new (i u : String) : playerInv (Player.new i u) := by
  rw [playerInv, Player.new]
  refine ⟨by simp [MAX_HEALTH], by norm_num [MAX_AMMO]⟩

lemma roomInv_update (r : Room) (i : String) (f : Player → Player)
    (hr : roomInv r)
    (hf : ∀ p, p ∈ r.players → p.id = i → playerInv p → playerInv (f p)) :
    roomInv (r.update i f) := by
  intro p' hp'
  simp only [Room.update] at hp'
  rcases List.mem_map.mp hp' with ⟨p, hp, heq⟩
  by_cases h : p.id = i
  · have hb : (p.id == i) = true := beq_iff_eq.mpr h
    rw [← heq, if_pos hb]
    exact hf p hp h (hr p hp)
  · have hb : ¬ ((p.id == i) = true) := by simp [h]
    rw [← heq, if_neg hb]
    exact hr p hp

lemma eq_find_of_mem (r : Room) (hnd : idsNodup r) (i : String)
    (q p : Player) (hfind : r.find i = some q) (hp : p ∈ r.players)
    (hpi : p.id = i) : p = q := by
  have hfind2 : (r.players.find? fun p2 => p2.id == i) = some q := hfind
  have hq : q ∈ r.players := List.mem_of_find?_eq_some hfind2
  have hqb := @List.find?_some _ (fun p2 => p2.id == i) q r.players hfind2
  have hqi : q.id = i := beq_iff_eq.mp hqb
  exact List.inj_on_of_nodup_map hnd hp hq (hpi.trans hqi.symm)

lemma shootStep_prop (socketId : String) (origin dir : Vec3)
    (C : Player → Prop) : ∀ (l : List Player)
    (acc : Option (HitResult × Player)),
    (∀ rp, acc = some rp → C rp.2) → (∀ t ∈ l, C t) →
    ∀ rp, l.foldl (shootStep socketId origin dir) acc = some rp → C rp.2 := by
  intro l
  induction l with
  | nil =>
      intro acc hacc _ rp h
      exact hacc rp h
  | cons hd tl ih =>
      intro acc hacc hl rp h
      rw [List.foldl_cons] at h
      refine ih _ ?_ (fun t ht => hl t (List.mem_cons_of_mem _ ht)) rp h
      intro rp' hrp'
      have hhd : C hd := hl hd (List.mem_cons_self _ _)
      rw [shootStep] at hrp'
      by_cases h1 : (hd.id == socketId) = true
      · rw [if_pos h1] at hrp'
        exact hacc rp' hrp'
      · rw [if_neg h1] at hrp'
        by_cases h2 : hd.isAlive = false
        · rw [if_pos h2] at hrp'
          exact hacc rp' hrp'
        · rw [if_neg h2] at hrp'
          by_cases h3 : (checkHit origin dir hd.position
              GAME_HIT_CONSTANTS).hit = true
          · rw [if_pos h3] at hrp'
            by_cases h4 : betterHit
                (checkHit origin dir hd.position GAME_HIT_CONSTANTS) acc = true
            · rw [if_pos h4, Option.some_inj] at hrp'
              rw [← hrp']
              exact hhd
            · rw [if_neg h4] at hrp'
              exact hacc rp' hrp'
          · rw [if_neg h3] at hrp'
            exact hacc rp' hrp'

lemma playerInv_assignSpawns : ∀ (i : ℕ) (l : List Player),
    (∀ p ∈ l, playerInv p) → ∀ p' ∈ assignSpawns i l, playerInv p' := by
  intro i l
  induction l generalizing i with
  | nil =>
      intro _ p' hp'
      simp [assignSpawns] at hp'
  | cons hd tl ih =>
      intro hl p' hp'
      rw [assignSpawns] at hp'
      rcases List.mem_cons.mp hp' with h | h
      · rw [h]
        exact hl hd (List.mem_cons_self _ _)
      · exact ih (i + 1) (fun p hp => hl p (List.mem_cons_of_mem _ hp)) p' h

lemma roomInv_death (r : Room) (hr : roomInv r) (v k : Player) (hs : Bool) :
    roomInv (handlePlayerDeath r v k hs).1 := by
  simp only [handlePlayerDeath]
  exact roomInv_update _ _ _
    (roomInv_update _ _ _ hr fun p _ _ hp => hp) fun p _ _ hp => hp

/-- Claim C6: every participant-state-mutating operation of a session —
join (`addPlayer`, including the game start it may trigger), move, shoot
(including damage application, death bookkeeping and respawn
scheduling), reload request, reload-timer fire, damage application
itself, death bookkeeping itself, respawn-timer fire and disconnect —
preserves the invariant that each player's `health > 0` iff
`isAlive = true` and `0 ≤ ammo ≤ MAX_AMMO`.  `idsNodup` is the Map-key
distinctness of socket ids. -/
theorem session_invariant_preserved (r : Room) (hr : roomInv r)
    (hnd : idsNodup r) (sid u : String)
    (pos? rot? origin? direction? : Option Vec3)
    (len : ℚ) (now amt : ℤ) (v k : Player) (hs : Bool) :
    roomInv (addPlayer r sid u).1 ∧
    roomInv (handlePlayerUpdate r sid pos? rot?) ∧
    roomInv (handlePlayerShoot r sid origin? direction? len now).1 ∧
    roomInv (handlePlayerReload r sid).1 ∧
    roomInv (reloadTimerFire r sid).1 ∧
    (playerInv v → playerInv (v.takeDamage amt).1) ∧
    roomInv (handlePlayerDeath r v k hs).1 ∧
    roomInv (respawnPlayer r sid).1 ∧
    roomInv (removePlayer r sid).1 := by
  have hM : MAX_AMMO = 5 := rfl
  refine ⟨?_, ?_, ?_, ?_, ?_, playerInv_takeDamage v amt, roomInv_death r hr v k hs, ?_, ?_⟩
  · -- addPlayer
    rw [addPlayer]
    by_cases h1 : r.players.length ≥ 2
    · rw [if_pos h1]
      exact hr
    · rw [if_neg h1]
      have hr1 : roomInv { r with players := r.players ++ [Player.new sid u] } := by
        intro p hp
        rcases List.mem_append.mp hp with h | h
        · exact hr p h
        · rw [List.mem_singleton] at h
          rw [h]
          exact playerInv_new sid u
      by_cases h2 : ((r.players ++ [Player.new sid u]).length == 2) = true
      · rw [if_pos h2]
        show roomInv (startGame _).1
        rw [startGame]
        by_cases h3 : ({ r with players := r.players ++ [Player.new sid u] } : Room).running = true
        · rw [if_pos h3]
          exact hr1
        · rw [if_neg h3]
          exact fun p hp => playerInv_assignSpawns 0 _ hr1 p hp
      · rw [if_neg h2]
        exact hr1
  · -- handlePlayerUpdate
    cases hfind : r.find sid with
    | none => simp only [handlePlayerUpdate, hfind]; exact hr
    | some q =>
        simp only [handlePlayerUpdate, hfind]
        by_cases h1 : q.isAlive = false
        · rw [if_pos h1]
          exact hr
        · rw [if_neg h1]
          refine roomInv_update r sid _ hr fun p _ _ hp => ?_
          rcases pos? with _ | pv <;> rcases rot? with _ | rv <;> exact hp
  · -- handlePlayerShoot
    cases hfind : r.find sid with
    | none => simp only [handlePlayerShoot, hfind]; exact hr
    | some shooter =>
        simp only [handlePlayerShoot, hfind]
        by_cases h1 : shooter.isAlive = false
        · rw [if_pos h1]; exact hr
        rw [if_neg h1]
        by_cases h2 : shooter.isReloading = true
        · rw [if_pos h2]; exact hr
        rw [if_neg h2]
        by_cases h3 : now - shooter.lastShotTime < SHOT_COOLDOWN
        · rw [if_pos h3]; exact hr
        rw [if_neg h3]
        by_cases h4 : shooter.ammo ≤ 0
        · rw [if_pos h4]; exact hr
        rw [if_neg h4]
        have hr1 : roomInv (r.update sid fun p =>
            { p with ammo := p.ammo - 1, lastShotTime := now }) := by
          refine roomInv_update r sid _ hr fun p hpmem hpid hp => ?_
          have hpq : p = shooter :=
            eq_find_of_mem r hnd sid shooter p hfind hpmem hpid
          have h4b : ¬ p.ammo ≤ 0 := by
            rw [hpq]
            exact h4
          rcases hp with ⟨hph, hpa1, hpa2⟩
          refine ⟨hph, ?_, ?_⟩
          · show 0 ≤ p.ammo - 1
            omega
          · show p.ammo - 1 ≤ MAX_AMMO
            omega
        cases direction? with
        | none => exact hr1
        | some dvec =>
            show roomInv ((if len = 0 then (r.update sid fun p =>
              { p with ammo := p.ammo - 1, lastShotTime := now }, ([] : List Event))
              else _).1)
            by_cases h5 : len = 0
            · rw [if_pos h5]
              exact hr1
            rw [if_neg h5]
            cases hnh : nearestHit (r.update sid fun p =>
                { p with ammo := p.ammo - 1, lastShotTime := now }).players sid
                (origin?.getD shooter.position)
                ⟨dvec.x / len, dvec.y / len, dvec.z / len⟩ with
            | none =>
                simp only [hnh]
                exact hr1
            | some rp =>
                simp only [hnh]
                have hmem : rp.2 ∈ (r.update sid fun p =>
                    { p with ammo := p.ammo - 1, lastShotTime := now }).players := by
                  rw [nearestHit] at hnh
                  exact shootStep_prop sid (origin?.getD shooter.position)
                    ⟨dvec.x / len, dvec.y / len, dvec.z / len⟩ _ _ none
                    (fun rp2 h => by cases h) (fun t ht => ht) rp hnh
                have hdi : playerInv (rp.2.takeDamage
                    (if rp.1.headshot = true then HEADSHOT_DAMAGE
                      else BODY_DAMAGE)).1 :=
                  playerInv_takeDamage _ _ (hr1 rp.2 hmem)
                have hr2 : roomInv ((r.update sid fun p =>
                    { p with ammo := p.ammo - 1, lastShotTime := now }).update
                      rp.2.id fun _ => (rp.2.takeDamage
                        (if rp.1.headshot = true then HEADSHOT_DAMAGE
                          else BODY_DAMAGE)).1) :=
                  roomInv_update _ _ _ hr1 fun p _ _ _ => hdi
                by_cases h6 : (rp.2.takeDamage
                    (if rp.1.headshot = true then HEADSHOT_DAMAGE
                      else BODY_DAMAGE)).2 = true
                · rw [if_pos h6]
                  exact roomInv_death _ hr2 rp.2 shooter rp.1.headshot
                · rw [if_neg h6]
                  exact hr2
  · -- handlePlayerReload
    cases hfind : r.find sid with
    | none => simp only [handlePlayerReload, hfind]; exact hr
    | some q =>
        simp only [handlePlayerReload, hfind]
        by_cases h1 : q.isAlive = false
        · rw [if_pos h1]; exact hr
        rw [if_neg h1]
        by_cases h2 : q.isReloading = true
        · rw [if_pos h2]; exact hr
        rw [if_neg h2]
        by_cases h3 : (q.ammo == MAX_AMMO) = true
        · rw [if_pos h3]; exact hr
        rw [if_neg h3]
        exact roomInv_update r sid _ hr fun p _ _ hp => hp
  · -- reloadTimerFire
    cases hfind : r.find sid with
    | none => simp only [reloadTimerFire, hfind]; exact hr
    | some q =>
        simp only [reloadTimerFire, hfind]
        refine roomInv_update r sid _ hr fun p _ _ hp => ?_
        exact ⟨hp.1, by norm_num [MAX_AMMO], le_refl _⟩
  · -- respawnPlayer
    cases hfind : r.find sid with
    | none => simp only [respawnPlayer, hfind]; exact hr
    | some q =>
        simp only [respawnPlayer, hfind]
        refine roomInv_update _ sid _ ?_ fun p _ _ hp => hp
        exact roomInv_update r sid _ hr fun p _ _ _ => playerInv_reset p
  · -- removePlayer
    cases hfind : r.find sid with
    | none => simp only [removePlayer, hfind]; exact hr
    | some q =>
        simp only [removePlayer, hfind]
        have hr1 : roomInv { r with players := r.players.filter (fun p => !(p.id == sid)) } := by
          intro p hp
          exact hr p (List.mem_of_mem_filter hp)
        by_cases h1 : ((r.players.filter (fun p => !(p.id == sid))).length == 0) = true
        · rw [if_pos h1]
          exact hr1
        rw [if_neg h1]
        by_cases h2 : ({ r with players := r.players.filter (fun p => !(p.id == sid)) } : Room).running = true
        · rw [if_pos h2]
          exact hr1
        · rw [if_neg h2]
          exact hr1

/-- Witness for `session_invariant_preserved` (claim C6), at the concrete
two-player room `roomAB`. -/
theorem session_invariant_preserved_witness :
    roomInv (addPlayer roomAB "a" "carol").1 ∧
    roomInv (handlePlayerUpdate roomAB "a" (some ⟨2, 3, 4⟩) none) ∧
    roomInv (handlePlayerShoot roomAB "a" none (some ⟨0, 0, 1⟩) 1 2000).1 ∧
    roomInv (handlePlayerReload roomAB "a").1 ∧
    roomInv (reloadTimerFire roomAB "a").1 ∧
    (playerInv pA → playerInv (pA.takeDamage 65).1) ∧
    roomInv (handlePlayerDeath roomAB pA pB false).1 ∧
    roomInv (respawnPlayer roomAB "a").1 ∧
    roomInv (removePlayer roomAB "a").1 :=
  session_invariant_preserved roomAB (by decide) (by decide) "a" "carol"
    (some ⟨2, 3, 4⟩) none none (some ⟨0, 0, 1⟩) 1 2000 65 pA pB false

end SniperGame
